import Mathlib

/-!
Shallow embedding of the ShopWise frontend core logic
(`frontend/src/App.tsx`, the API client module, and the `ProductCard`
component), together with proofs of the specified properties of result
ranking, carbon-label classification, the search client and backend URL
resolution.  JavaScript numbers are embedded as rationals, the JavaScript
strings that undergo structural manipulation (host names, URLs) as lists
of characters, and the stable `Array.prototype.sort` as `List.mergeSort`.
-/

namespace ShopWise

open List

/-- The `Carbon` entity of `frontend/src/models/search.ts`. -/
structure Carbon where
  kg_co2e : ℚ
  label : String
  deriving DecidableEq

/-- The `ProductResult` entity of `frontend/src/models/search.ts`. -/
structure ProductResult where
  store : String
  name : String
  price : ℚ
  link : String
  ethical_score : ℚ
  carbon : Carbon
  deriving DecidableEq

/-- The `SearchResponse` entity of `frontend/src/models/search.ts`. -/
structure SearchResponse where
  query : String
  results : List ProductResult
  summary : String
  deriving DecidableEq

/-- The `SortMode` type of `App.tsx` (`"price" | "carbon"`). -/
inductive SortMode where
  | price
  | carbon
  deriving DecidableEq

/-- The comparator passed to `.sort` in the `sortedResults` computation of
`App.tsx` (lines 53-65): when the mode is `carbon`, compare
`carbon.kg_co2e` first and break ties on `price`; otherwise compare
`price` first and break ties on `carbon.kg_co2e`. -/
def compareResults : SortMode → ProductResult → ProductResult → ℚ
  | .carbon, a, b =>
    if a.carbon.kg_co2e = b.carbon.kg_co2e then a.price - b.price
    else a.carbon.kg_co2e - b.carbon.kg_co2e
  | .price, a, b =>
    if a.price = b.price then a.carbon.kg_co2e - b.carbon.kg_co2e
    else a.price - b.price

/-- Boolean order induced by the comparator: `a` may precede `b` exactly
when the comparator value is nonpositive, per the ECMAScript contract for
`Array.prototype.sort`. -/
def resultLe (mode : SortMode) (a b : ProductResult) : Bool :=
  decide (compareResults mode a b ≤ 0)

/-- The `sortedResults` computation of `App.tsx`: a stable sort of the
current result list by `compareResults` (ECMAScript specifies
`Array.prototype.sort` as stable; `List.mergeSort` is its stable-sort
embedding). -/
def rank (mode : SortMode) (results : List ProductResult) : List ProductResult :=
  results.mergeSort (resultLe mode)

/-- Ordering relation as worded by the spec (section 4.2): strictly smaller
primary key first, ties broken by the secondary key ascending.  Written
from the spec's words, to be compared with `compareResults` above. -/
def specLe : SortMode → ProductResult → ProductResult → Prop
  | .price, a, b =>
    a.price < b.price ∨ (a.price = b.price ∧ a.carbon.kg_co2e ≤ b.carbon.kg_co2e)
  | .carbon, a, b =>
    a.carbon.kg_co2e < b.carbon.kg_co2e ∨
      (a.carbon.kg_co2e = b.carbon.kg_co2e ∧ a.price ≤ b.price)

theorem resultLe_iff (mode : SortMode) (a b : ProductResult) :
    resultLe mode a b = true ↔ specLe mode a b := by
  cases mode
  case price =>
    simp only [resultLe, compareResults, specLe, decide_eq_true_eq]
    split_ifs with h
    · constructor
      · intro h'
        exact Or.inr ⟨h, by linarith⟩
      · rintro (h' | ⟨-, h'⟩)
        · exact absurd h h'.ne
        · linarith
    · rw [sub_nonpos]
      constructor
      · intro h'
        exact Or.inl (lt_of_le_of_ne h' h)
      · rintro (h' | ⟨h', -⟩)
        · exact h'.le
        · exact absurd h' h
  case carbon =>
    simp only [resultLe, compareResults, specLe, decide_eq_true_eq]
    split_ifs with h
    · constructor
      · intro h'
        exact Or.inr ⟨h, by linarith⟩
      · rintro (h' | ⟨-, h'⟩)
        · exact absurd h h'.ne
        · linarith
    · rw [sub_nonpos]
      constructor
      · intro h'
        exact Or.inl (lt_of_le_of_ne h' h)
      · rintro (h' | ⟨h', -⟩)
        · exact h'.le
        · exact absurd h' h

theorem lexRatLe_trans {p₁ c₁ p₂ c₂ p₃ c₃ : ℚ}
    (h₁ : p₁ < p₂ ∨ (p₁ = p₂ ∧ c₁ ≤ c₂)) (h₂ : p₂ < p₃ ∨ (p₂ = p₃ ∧ c₂ ≤ c₃)) :
    p₁ < p₃ ∨ (p₁ = p₃ ∧ c₁ ≤ c₃) := by
  rcases h₁ with h | ⟨h, h'⟩ <;> rcases h₂ with g | ⟨g, g'⟩
  · exact Or.inl (h.trans g)
  · exact Or.inl (g ▸ h)
  · exact Or.inl (by rw [h]; exact g)
  · exact Or.inr ⟨h.trans g, h'.trans g'⟩

theorem specLe_trans (mode : SortMode) (a b c : ProductResult)
    (hab : specLe mode a b) (hbc : specLe mode b c) : specLe mode a c := by
  cases mode <;> simp only [specLe] at hab hbc ⊢ <;> exact lexRatLe_trans hab hbc

theorem resultLe_trans (mode : SortMode) : ∀ a b c : ProductResult,
    resultLe mode a b = true → resultLe mode b c = true → resultLe mode a c = true := by
  intro a b c hab hbc
  rw [resultLe_iff] at hab hbc ⊢
  exact specLe_trans mode a b c hab hbc

theorem compareResults_swap (mode : SortMode) (a b : ProductResult) :
    compareResults mode b a = -compareResults mode a b := by
  cases mode
  case price =>
    by_cases h : a.price = b.price
    · simp [compareResults, h]
    · have h' : ¬ b.price = a.price := fun g => h g.symm
      simp [compareResults, h, h']
  case carbon =>
    by_cases h : a.carbon.kg_co2e = b.carbon.kg_co2e
    · simp [compareResults, h]
    · have h' : ¬ b.carbon.kg_co2e = a.carbon.kg_co2e := fun g => h g.symm
      simp [compareResults, h, h']

theorem resultLe_total (mode : SortMode) : ∀ a b : ProductResult,
    (resultLe mode a b || resultLe mode b a) = true := by
  intro a b
  simp only [resultLe, Bool.or_eq_true, decide_eq_true_eq, compareResults_swap mode a b]
  rcases le_total (compareResults mode a b) 0 with h | h
  · exact Or.inl h
  · exact Or.inr (by linarith)

/-- C1: for every list of `ProductResult`, the output of `rank` is ordered
by the two-key rule: under mode `byPrice`, elements with strictly smaller
`price` come first and ties on `price` are ordered by `carbon.kg_co2e`
ascending; under mode `byCarbon`, elements with strictly smaller
`carbon.kg_co2e` come first and ties are ordered by `price` ascending. -/
theorem rank_pairwise_specLe (mode : SortMode) (l : List ProductResult) :
    (rank mode l).Pairwise (specLe mode) := by
  unfold rank
  exact (List.sorted_mergeSort (resultLe_trans mode) (resultLe_total mode) l).imp
    fun h => (resultLe_iff mode _ _).mp h

/-- C2: `rank` is stable for both modes — any two elements equal on both
`price` and `carbon.kg_co2e` (exact rational equality) keep their relative
input order in the output. -/
theorem rank_stable (mode : SortMode) (l : List ProductResult) (a b : ProductResult)
    (hp : a.price = b.price) (hc : a.carbon.kg_co2e = b.carbon.kg_co2e)
    (hab : [a, b] <+ l) : [a, b] <+ rank mode l := by
  refine List.pair_sublist_mergeSort (resultLe_trans mode) (resultLe_total mode) ?_ hab
  rw [resultLe_iff]
  cases mode
  case price => exact Or.inr ⟨hp, hc.le⟩
  case carbon => exact Or.inr ⟨hc, hp.le⟩

/-- Two sample results sharing both sort keys, used as concrete inputs. -/
def sampleA : ProductResult :=
  ⟨"EcoStore", "Wireless Headphones", 30, "https://a.example", 4, ⟨2, "Low impact"⟩⟩

/-- A second sample result with the same `price` and `carbon.kg_co2e` as
`sampleA` but different on every other field. -/
def sampleB : ProductResult :=
  ⟨"MegaMart", "Wireless Headphones", 30, "https://b.example", 3, ⟨2, "High impact"⟩⟩

/-- Witness for C2 at a concrete pair of results with equal keys. -/
theorem rank_stable_witness :
    sampleA.price = sampleB.price ∧ sampleA.carbon.kg_co2e = sampleB.carbon.kg_co2e ∧
      [sampleA, sampleB] <+ [sampleA, sampleB] ∧
      [sampleA, sampleB] <+ rank .price [sampleA, sampleB] :=
  ⟨rfl, rfl, List.Sublist.refl _,
    rank_stable .price [sampleA, sampleB] sampleA sampleB rfl rfl (List.Sublist.refl _)⟩

/-- C3: for every result list and both modes, `rank` returns a permutation
of its input (same multiset of elements). -/
theorem rank_perm (mode : SortMode) (l : List ProductResult) :
    (rank mode l).Perm l :=
  List.mergeSort_perm l (resultLe mode)

/-- C4: for every result list and both modes, `rank` is idempotent:
sorting an already-sorted list returns it unchanged. -/
theorem rank_idempotent (mode : SortMode) (l : List ProductResult) :
    rank mode (rank mode l) = rank mode l :=
  List.mergeSort_of_sorted
    (List.sorted_mergeSort (resultLe_trans mode) (resultLe_total mode) l)

/-- The badge classification of the `ProductCard` component: exact string
match on `carbon.label`, with every unrecognized label mapped to the
high-impact badge. -/
def badgeColor (label : String) : String :=
  if label = "Low impact" then "badge-low"
  else if label = "Moderate impact" then "badge-medium"
  else "badge-high"

/-- C5: the carbon-label classification maps `"Low impact"` to the low
tier, `"Moderate impact"` to the moderate tier, and every other string
(empty string, casing variants and unseen labels alike) to the high tier,
by exact string match. -/
theorem badgeColor_classification :
    badgeColor "Low impact" = "badge-low" ∧
      badgeColor "Moderate impact" = "badge-medium" ∧
      ∀ s : String, s ≠ "Low impact" → s ≠ "Moderate impact" →
        badgeColor s = "badge-high" := by
  refine ⟨by decide, by decide, ?_⟩
  intro s h1 h2
  simp [badgeColor, h1, h2]

/-- Witness for C5: the default branch at the empty string and at a casing
variant of a known label. -/
theorem badgeColor_classification_witness :
    badgeColor "" = "badge-high" ∧ badgeColor "low impact" = "badge-high" :=
  ⟨badgeColor_classification.2.2 "" (by decide) (by decide),
    badgeColor_classification.2.2 "low impact" (by decide) (by decide)⟩

/-- JavaScript `String.prototype.trim`, embedded on character lists: strip
leading and trailing whitespace. -/
def trim (l : List Char) : List Char :=
  ((l.dropWhile Char.isWhitespace).reverse.dropWhile Char.isWhitespace).reverse

/-- JSON values as serialized into the request body by the client (only
strings and numbers occur). -/
inductive Json where
  | str (s : List Char)
  | num (q : ℚ)
  deriving DecidableEq

/-- An outbound HTTP request as assembled by the client: method, full URL,
and the JSON object body as ordered key-value pairs. -/
structure Request where
  method : String
  url : List Char
  body : List (String × Json)
  deriving DecidableEq

/-- The request built by `searchProducts` in the API client module:
`axios.post` of `API_BASE_URL` + `/api/search` with body
`{ query, limit }`. -/
def searchProductsRequest (apiBaseUrl : List Char) (query : List Char) (limit : ℚ) :
    Request :=
  { method := "POST"
    url := apiBaseUrl ++ ("/api/search").toList
    body := [("query", Json.str query), ("limit", Json.num limit)] }

/-- The requests issued by one call of `searchProducts`: exactly the one
`axios.post`. -/
def searchProductsRequests (apiBaseUrl : List Char) (query : List Char) (limit : ℚ) :
    List Request :=
  [searchProductsRequest apiBaseUrl query limit]

/-- The value returned by `searchProducts` from a fulfilled call:
`return response.data`, the parsed body passed through unchanged. -/
def searchProductsValue (responseData : SearchResponse) : SearchResponse :=
  responseData

/-- The transient UI state of `App.tsx` (the `useState` hooks). -/
structure UIState where
  query : List Char
  limit : ℚ
  loading : Bool
  error : Option String
  data : Option SearchResponse
  sortMode : SortMode
  showSignup : Bool
  deriving DecidableEq

/-- The validation message `handleSearch` sets for a blank query. -/
def validationMessage : String := "Please enter a product name before searching."

/-- The generic failure message `handleSearch` sets when the API call
throws. -/
def apiErrorMessage : String := "Something went wrong while contacting the ShopWise API."

/-- The `handleSearch` handler of `App.tsx` (lines 33-50).  `backend`
models one `axios.post` interaction: `some r` is a fulfilled promise with
parsed body `r`; `none` is any rejection (transport error, non-2xx status
or malformed body).  The second component lists the requests dispatched
during the call. -/
def handleSearch (apiBaseUrl : List Char) (s : UIState)
    (backend : Request → Option SearchResponse) : UIState × List Request :=
  let trimmed := trim s.query
  if trimmed = [] then
    ({ s with error := some validationMessage }, [])
  else
    let req := searchProductsRequest apiBaseUrl trimmed s.limit
    match backend req with
    | some responseData =>
        ({ s with error := none, data := some (searchProductsValue responseData),
                  loading := false },
          searchProductsRequests apiBaseUrl trimmed s.limit)
    | none =>
        ({ s with error := some apiErrorMessage, loading := false },
          searchProductsRequests apiBaseUrl trimmed s.limit)

/-- C6: for every state whose query is empty or whitespace-only after
trimming, `handleSearch` makes no network call and sets the user-facing
validation message, leaving the stored results untouched. -/
theorem handleSearch_blank_query (apiBaseUrl : List Char) (s : UIState)
    (backend : Request → Option SearchResponse) (h : trim s.query = []) :
    (handleSearch apiBaseUrl s backend).2 = [] ∧
      (handleSearch apiBaseUrl s backend).1.error = some validationMessage ∧
      (handleSearch apiBaseUrl s backend).1.data = s.data := by
  simp [handleSearch, h]

/-- A previously fetched response, held in the sample states below. -/
def sampleResponse : SearchResponse :=
  ⟨"old query", [sampleA, sampleB], "prior summary"⟩

/-- A sample UI state with a whitespace-only query and stored results. -/
def sampleStateBlank : UIState :=
  { query := ("   ").toList, limit := 3, loading := false, error := none,
    data := some sampleResponse, sortMode := .price, showSignup := false }

/-- A sample UI state with a padded non-blank query and stored results. -/
def sampleStateFilled : UIState :=
  { query := ("  wireless headphones ").toList, limit := 3, loading := false,
    error := none, data := some sampleResponse, sortMode := .price,
    showSignup := false }

/-- Witness for C6 at a concrete whitespace-only query. -/
theorem handleSearch_blank_query_witness :
    trim sampleStateBlank.query = [] ∧
      (handleSearch [] sampleStateBlank (fun _ => none)).2 = [] ∧
      (handleSearch [] sampleStateBlank (fun _ => none)).1.error = some validationMessage ∧
      (handleSearch [] sampleStateBlank (fun _ => none)).1.data = sampleStateBlank.data := by
  have H := handleSearch_blank_query [] sampleStateBlank (fun _ => none) (by decide)
  exact ⟨by decide, H.1, H.2.1, H.2.2⟩

/-- C7: when the trimmed query is non-blank and the backend call fails in
any way, the stored result list is unchanged (previously displayed results
stay visible) and the error indicator holds the generic failure message. -/
theorem handleSearch_failure_preserves_data (apiBaseUrl : List Char) (s : UIState)
    (backend : Request → Option SearchResponse) (h : trim s.query ≠ [])
    (hfail : backend (searchProductsRequest apiBaseUrl (trim s.query) s.limit) = none) :
    (handleSearch apiBaseUrl s backend).1.data = s.data ∧
      (handleSearch apiBaseUrl s backend).1.error = some apiErrorMessage := by
  simp [handleSearch, h, hfail]

/-- Witness for C7: a failing backend leaves the concrete stored results
in place. -/
theorem handleSearch_failure_preserves_data_witness :
    trim sampleStateFilled.query ≠ [] ∧
      (handleSearch [] sampleStateFilled (fun _ => none)).1.data = some sampleResponse ∧
      (handleSearch [] sampleStateFilled (fun _ => none)).1.error = some apiErrorMessage := by
  have H := handleSearch_failure_preserves_data [] sampleStateFilled (fun _ => none)
    (by decide) rfl
  exact ⟨by decide, H.1, H.2⟩

/-- C8: for every base URL, query and limit, the client issues exactly one
POST request to `/api/search` under the base URL, whose JSON body has
exactly the fields `query` and `limit` with the given values, and returns
the parsed response body unchanged as the `SearchResponse`. -/
theorem searchProducts_contract (apiBaseUrl : List Char) (query : List Char) (limit : ℚ) :
    (searchProductsRequests apiBaseUrl query limit).length = 1 ∧
      (∀ r ∈ searchProductsRequests apiBaseUrl query limit,
        r.method = "POST" ∧ r.url = apiBaseUrl ++ ("/api/search").toList ∧
          r.body = [("query", Json.str query), ("limit", Json.num limit)]) ∧
      ∀ responseData : SearchResponse, searchProductsValue responseData = responseData := by
  refine ⟨rfl, ?_, fun _ => rfl⟩
  intro r hr
  rw [searchProductsRequests, List.mem_singleton] at hr
  subst hr
  exact ⟨rfl, rfl, rfl⟩

/-- Witness for C8 at the concrete query of Scenario A. -/
theorem searchProducts_contract_witness :
    (searchProductsRequest (("http://localhost:8000").toList)
          (("wireless headphones").toList) 3).method = "POST" ∧
      (searchProductsRequest (("http://localhost:8000").toList)
          (("wireless headphones").toList) 3).url =
        ("http://localhost:8000").toList ++ ("/api/search").toList ∧
      (searchProductsRequest (("http://localhost:8000").toList)
          (("wireless headphones").toList) 3).body =
        [("query", Json.str (("wireless headphones").toList)), ("limit", Json.num 3)] :=
  (searchProducts_contract (("http://localhost:8000").toList)
    (("wireless headphones").toList) 3).2.1 _ (List.mem_singleton.mpr rfl)

/-- C10: for every state whose query is non-blank after trimming, the
dispatched request carries the trimmed query in its body: leading and
trailing whitespace never reaches the backend. -/
theorem handleSearch_sends_trimmed_query (apiBaseUrl : List Char) (s : UIState)
    (backend : Request → Option SearchResponse) (h : trim s.query ≠ []) :
    (handleSearch apiBaseUrl s backend).2 =
        searchProductsRequests apiBaseUrl (trim s.query) s.limit ∧
      ∀ r ∈ (handleSearch apiBaseUrl s backend).2,
        r.body = [("query", Json.str (trim s.query)), ("limit", Json.num s.limit)] := by
  have h2 : (handleSearch apiBaseUrl s backend).2 =
      searchProductsRequests apiBaseUrl (trim s.query) s.limit := by
    cases hb : backend (searchProductsRequest apiBaseUrl (trim s.query) s.limit) <;>
      simp [handleSearch, h, hb]
  refine ⟨h2, ?_⟩
  intro r hr
  rw [h2, searchProductsRequests, List.mem_singleton] at hr
  subst hr
  rfl

/-- Witness for C10: the padded concrete query is sent trimmed. -/
theorem handleSearch_sends_trimmed_query_witness :
    (handleSearch [] sampleStateFilled (fun _ => none)).2 =
      [{ method := "POST", url := ("/api/search").toList,
         body := [("query", Json.str (("wireless headphones").toList)),
                  ("limit", Json.num 3)] }] := by
  have H := handleSearch_sends_trimmed_query [] sampleStateFilled (fun _ => none) (by decide)
  rw [H.1]
  decide

/-- The `window.location` fields read by `getApiBaseUrl`. -/
structure Location where
  protocol : List Char
  hostname : List Char

/-- JavaScript `String.prototype.includes`, embedded on character lists:
substring containment. -/
def strIncludes (hay pat : List Char) : Bool :=
  hay.tails.any (fun t => pat.isPrefixOf t)

/-- The `getApiBaseUrl` resolution of the API client module (lines 6-28).
`window` is `none` when `typeof window === "undefined"`; `viteApiUrl` is
`some v` when the `VITE_API_URL` build variable is defined with value `v`
(`v` may be the empty string, which the source's `||` treats as falsy). -/
def getApiBaseUrl (window : Option Location) (viteApiUrl : Option (List Char)) :
    List Char :=
  let dflt :=
    match viteApiUrl with
    | some v => if v = [] then ("http://localhost:8000").toList else v
    | none => ("http://localhost:8000").toList
  match window with
  | some loc =>
    if strIncludes loc.hostname (("daytona").toList)
        || strIncludes loc.hostname (("app.daytona.io").toList) then
      let parts := loc.hostname.splitOn '.'
      if 0 < parts.length then
        let firstPart := parts.headI
        let baseId := List.intercalate ['-'] ((firstPart.splitOn '-').dropLast)
        loc.protocol ++ ("//").toList ++ baseId ++ ("-8000.app.daytona.io").toList
      else dflt
    else dflt
  | none => dflt

theorem isPrefixOf_append (pat rest : List Char) :
    pat.isPrefixOf (pat ++ rest) = true := by
  induction pat with
  | nil => simp [List.isPrefixOf]
  | cons c cs ih => simp [List.isPrefixOf, ih]

theorem strIncludes_of_append_suffix (hay pat rest : List Char)
    (h : (pat ++ rest) <:+ hay) : strIncludes hay pat = true := by
  unfold strIncludes
  rw [List.any_eq_true]
  exact ⟨pat ++ rest, (List.mem_tails _ _).mpr h, isPrefixOf_append pat rest⟩

theorem modifyHead_append' {α : Type} (f : α → α) (l l' : List α) (h : l ≠ []) :
    (l ++ l').modifyHead f = l.modifyHead f ++ l' := by
  cases l with
  | nil => exact absurd rfl h
  | cons x xs => rfl

theorem splitOnP_append_sep {α : Type} (p : α → Bool) (sep : α) (hsep : p sep = true)
    (ys : List α) (hys : ∀ y ∈ ys, ¬(p y = true)) :
    ∀ xs : List α, (xs ++ sep :: ys).splitOnP p = xs.splitOnP p ++ [ys] := by
  intro xs
  induction xs with
  | nil =>
    rw [List.nil_append, List.splitOnP_cons, if_pos hsep, List.splitOnP_eq_single _ _ hys]
    rfl
  | cons x xs ih =>
    rw [List.cons_append, List.splitOnP_cons, List.splitOnP_cons]
    by_cases hx : p x = true
    · rw [if_pos hx, if_pos hx, ih]
      rfl
    · rw [if_neg hx, if_neg hx, ih, modifyHead_append' _ _ _ (List.splitOnP_ne_nil p xs)]

theorem getApiBaseUrl_daytona (protocol wsid port : List Char)
    (viteApiUrl : Option (List Char))
    (hwsid : '.' ∉ wsid) (hport : '.' ∉ port) (hdash : '-' ∉ port) :
    getApiBaseUrl
        (some ⟨protocol, wsid ++ '-' :: (port ++ (".app.daytona.io").toList)⟩)
        viteApiUrl
      = protocol ++ ("//").toList ++ wsid ++ ("-8000.app.daytona.io").toList := by
  have h1 : (("daytona").toList ++ (".io").toList) <:+ (".app.daytona.io").toList :=
    ⟨(".app.").toList, by decide⟩
  have h2 : (".app.daytona.io").toList <:+
      (wsid ++ '-' :: (port ++ (".app.daytona.io").toList)) :=
    ⟨wsid ++ '-' :: port, by simp⟩
  have hinc := strIncludes_of_append_suffix _ _ _ (h1.trans h2)
  have hmem : ∀ x ∈ wsid ++ '-' :: port, ¬((x == '.') = true) := by
    intro x hx
    simp only [beq_iff_eq]
    rcases List.mem_append.mp hx with hx | hx
    · exact fun hc => hwsid (hc ▸ hx)
    · rcases List.mem_cons.mp hx with rfl | hx
      · decide
      · exact fun hc => hport (hc ▸ hx)
  have hsplit : (wsid ++ '-' :: (port ++ (".app.daytona.io").toList)).splitOn '.'
      = (wsid ++ '-' :: port) :: (("app.daytona.io").toList.splitOnP (· == '.')) := by
    have hform : wsid ++ '-' :: (port ++ (".app.daytona.io").toList)
        = (wsid ++ '-' :: port) ++ '.' :: ("app.daytona.io").toList := by
      have hd : (".app.daytona.io").toList = '.' :: ("app.daytona.io").toList := by decide
      rw [hd]
      simp
    rw [hform, List.splitOn]
    exact List.splitOnP_first _ _ hmem '.' rfl _
  have hsplit2 : (wsid ++ '-' :: port).splitOn '-' = wsid.splitOnP (· == '-') ++ [port] := by
    rw [List.splitOn]
    refine splitOnP_append_sep _ '-' rfl port ?_ wsid
    intro y hy
    simp only [beq_iff_eq]
    exact fun hc => hdash (hc ▸ hy)
  have hint : ['-'].intercalate (wsid.splitOn '-') = wsid :=
    List.intercalate_splitOn wsid '-'
  rw [List.splitOn] at hint
  simp only [getApiBaseUrl, hinc, Bool.true_or, hsplit, List.length_cons, List.headI,
    hsplit2, List.dropLast_concat, Nat.zero_lt_succ, if_true, hint]

theorem getApiBaseUrl_override (window : Option Location) (v : List Char)
    (hnod : ∀ loc, window = some loc →
      (strIncludes loc.hostname (("daytona").toList)
        || strIncludes loc.hostname (("app.daytona.io").toList)) = false)
    (hv : v ≠ []) :
    getApiBaseUrl window (some v) = v := by
  cases window with
  | none => simp [getApiBaseUrl, hv]
  | some loc =>
    have h := hnod loc rfl
    rw [Bool.or_eq_false_iff] at h
    simp only [getApiBaseUrl]
    rw [h.1, h.2]
    simp [hv]

theorem getApiBaseUrl_default (window : Option Location)
    (viteApiUrl : Option (List Char))
    (hnod : ∀ loc, window = some loc →
      (strIncludes loc.hostname (("daytona").toList)
        || strIncludes loc.hostname (("app.daytona.io").toList)) = false)
    (hv : viteApiUrl = none ∨ viteApiUrl = some []) :
    getApiBaseUrl window viteApiUrl = ("http://localhost:8000").toList := by
  rcases hv with rfl | rfl
  · cases window with
    | none => simp [getApiBaseUrl]
    | some loc =>
      have h := hnod loc rfl
      rw [Bool.or_eq_false_iff] at h
      simp only [getApiBaseUrl]
      rw [h.1, h.2]
      simp
  · cases window with
    | none => simp [getApiBaseUrl]
    | some loc =>
      have h := hnod loc rfl
      rw [Bool.or_eq_false_iff] at h
      simp only [getApiBaseUrl]
      rw [h.1, h.2]
      simp

theorem getApiBaseUrl_trigger_ignores_override (loc : Location)
    (viteApiUrl viteApiUrl' : Option (List Char))
    (h : (strIncludes loc.hostname (("daytona").toList)
      || strIncludes loc.hostname (("app.daytona.io").toList)) = true) :
    getApiBaseUrl (some loc) viteApiUrl = getApiBaseUrl (some loc) viteApiUrl' := by
  have hlen : 0 < (loc.hostname.splitOn '.').length :=
    List.length_pos.mpr (List.splitOnP_ne_nil _ _)
  simp only [getApiBaseUrl]
  rw [if_pos h, if_pos h, if_pos hlen, if_pos hlen]

/-- C9 (amended): `getApiBaseUrl` resolves the backend base URL in
priority order: (a) when the page hostname contains the substring
`daytona` — the source's hosted-workspace detection — the
hostname-rewriting heuristic is used and the override and default tiers
are never consulted; when the hostname moreover has the hosted-workspace
form `<workspace-id>-<port>.app.daytona.io`, the result rewrites the
embedded port segment to the fixed backend port 8000 while preserving the
protocol and the workspace identifier; otherwise (b) the configured
override when present and non-empty (the source's `||` treats an empty
override as absent); otherwise (c) the hardcoded local-development
default `http://localhost:8000`. -/
theorem getApiBaseUrl_resolution :
    (∀ (protocol wsid port : List Char) (viteApiUrl : Option (List Char)),
      '.' ∉ wsid → '.' ∉ port → '-' ∉ port →
      getApiBaseUrl
          (some ⟨protocol, wsid ++ '-' :: (port ++ (".app.daytona.io").toList)⟩)
          viteApiUrl
        = protocol ++ ("//").toList ++ wsid ++ ("-8000.app.daytona.io").toList) ∧
    (∀ (loc : Location) (viteApiUrl viteApiUrl' : Option (List Char)),
      (strIncludes loc.hostname (("daytona").toList)
        || strIncludes loc.hostname (("app.daytona.io").toList)) = true →
      getApiBaseUrl (some loc) viteApiUrl = getApiBaseUrl (some loc) viteApiUrl') ∧
    (∀ (window : Option Location) (v : List Char),
      (∀ loc, window = some loc →
        (strIncludes loc.hostname (("daytona").toList)
          || strIncludes loc.hostname (("app.daytona.io").toList)) = false) →
      v ≠ [] → getApiBaseUrl window (some v) = v) ∧
    (∀ (window : Option Location) (viteApiUrl : Option (List Char)),
      (∀ loc, window = some loc →
        (strIncludes loc.hostname (("daytona").toList)
          || strIncludes loc.hostname (("app.daytona.io").toList)) = false) →
      (viteApiUrl = none ∨ viteApiUrl = some []) →
      getApiBaseUrl window viteApiUrl = ("http://localhost:8000").toList) :=
  ⟨getApiBaseUrl_daytona, getApiBaseUrl_trigger_ignores_override,
    getApiBaseUrl_override, getApiBaseUrl_default⟩

/-- Witness for C9 at concrete hosted-workspace, trigger-without-workspace-
form, override and default inputs. -/
theorem getApiBaseUrl_resolution_witness :
    getApiBaseUrl
        (some ⟨("https:").toList,
          ("myws").toList ++ '-' :: (("3000").toList ++ (".app.daytona.io").toList)⟩)
        none
      = ("https:").toList ++ ("//").toList ++ ("myws").toList ++
          ("-8000.app.daytona.io").toList ∧
    getApiBaseUrl (some ⟨("https:").toList, ("daytonabeach.com").toList⟩)
        (some (("http://backend.test:9999").toList))
      = getApiBaseUrl (some ⟨("https:").toList, ("daytonabeach.com").toList⟩) none ∧
    getApiBaseUrl none (some (("http://backend.test:9999").toList))
      = ("http://backend.test:9999").toList ∧
    getApiBaseUrl (some ⟨("http:").toList, ("localhost").toList⟩) none
      = ("http://localhost:8000").toList := by
  refine ⟨?_, ?_, ?_, ?_⟩
  · exact getApiBaseUrl_resolution.1 (("https:").toList) (("myws").toList)
      (("3000").toList) none (by decide) (by decide) (by decide)
  · exact getApiBaseUrl_resolution.2.1 ⟨("https:").toList, ("daytonabeach.com").toList⟩
      (some (("http://backend.test:9999").toList)) none (by decide)
  · exact getApiBaseUrl_resolution.2.2.1 none (("http://backend.test:9999").toList)
      (fun loc h => nomatch h) (by decide)
  · refine getApiBaseUrl_resolution.2.2.2 (some ⟨("http:").toList, ("localhost").toList⟩)
      none ?_ (Or.inl rfl)
    intro loc h
    obtain rfl := (Option.some.inj h).symm
    decide

/-- Counterexamples to C9 as stated: (1) with no page hostname available
and the override configured as the empty string (hence present),
resolution returns the hardcoded default rather than the override;
(2) at the hostname `daytonabeach.com`, which does not match the
hosted-workspace form `<workspace-id>-<port>.app.daytona.io` yet contains
the substring `daytona`, resolution with a non-empty override configured
applies the hostname rewrite (yielding the protocol, the double slash, an
empty workspace identifier and `-8000.app.daytona.io`) instead of
returning the override. -/
theorem getApiBaseUrl_counterexample :
    (getApiBaseUrl none (some []) = ("http://localhost:8000").toList ∧
      getApiBaseUrl none (some []) ≠ []) ∧
    (getApiBaseUrl (some ⟨("https:").toList, ("daytonabeach.com").toList⟩)
        (some (("http://backend.test:9999").toList))
      = ("https://-8000.app.daytona.io").toList ∧
      getApiBaseUrl (some ⟨("https:").toList, ("daytonabeach.com").toList⟩)
          (some (("http://backend.test:9999").toList))
        ≠ ("http://backend.test:9999").toList) := by
  decide

end ShopWise
